import Mathlib

/-!
Verification of the 04Utils repository: a shallow embedding of the
`Migration` schema-migration class (src/src/color.ts) and of the
console-styling helper `color` (src/src/utils/color.ts), together with
proofs settling the frozen claims about them.

Conventions of the embedding:
* JavaScript runtime values that may flow through the untyped query
  executor are modelled by the inductive type `JsVal`.
* The injected query function (`queryFn` in the source) is modelled as an
  explicit argument `exec : Exec`; a rejected promise is an
  `Except.error` carrying a `DBError` (the duck-typed error object whose
  `sqlMessage` field may be absent).
* Each method of the class is a pure function from the executor and the
  current instance state to: the list of calls made to the executor (in
  order), the state of the instance after the method finishes (normally
  or by throwing), and an `Except String` outcome whose error is the
  message of the thrown `Error`.  The source mutates `this.fields` /
  `this.table` only after the awaited executor call succeeds, which the
  embedding renders by returning the old state on the error path.
-/

/-- A JavaScript runtime value, as far as the migration helper inspects
one: `undefined`, `null`, booleans, numbers, strings, arrays and plain
objects (own enumerable string-keyed properties, in insertion order). -/
inductive JsVal where
  | jsUndefined : JsVal
  | jsNull : JsVal
  | bool : Bool → JsVal
  | num : Int → JsVal
  | str : String → JsVal
  | arr : List JsVal → JsVal
  | obj : List (String × JsVal) → JsVal

/-- First-match association-list lookup, the model of reading an own
property of a JS object literal (keys of an object literal are unique,
so first match is the only match). -/
def assocLookup {α : Type} : List (String × α) → String → Option α
  | [], _ => none
  | (k, v) :: rest, n => if k = n then some v else assocLookup rest n

/-- The duck-typed error object caught by every `catch (error: any)` in
the source: an optional driver-specific `sqlMessage` field and the
generic `message` field. -/
structure DBError where
  sqlMessage : Option String
  message : String

/-- The message selected by `error.sqlMessage || error.message`: the
`sqlMessage` field when it is present and truthy (a non-empty string),
otherwise the `message` field. -/
def extractMsg (e : DBError) : String :=
  match e.sqlMessage with
  | some s => if s = "" then e.message else s
  | none => e.message

/-- The injected `queryFn`: takes the query string and the optional
parameter array, and either resolves with a result value or rejects
with an error object. -/
abbrev Exec := String → Option (List JsVal) → Except DBError JsVal

/-- One call made to the executor: the query string and the parameter
array passed along with it (`none` when the `params` argument was
omitted, as it is everywhere except in `sql`). -/
abbrev Call := String × Option (List JsVal)

/-- One entry of `this.fields`: `{ fieldName, type }`. -/
structure FieldDef where
  fieldName : String
  type : List String
deriving DecidableEq

/-- The `FieldDefinitions` input object, modelled by its own enumerable
entries in enumeration order (`Object.entries`). -/
abbrev FieldDefinitions := List (String × List String)

/-- The mutable state of a `Migration` instance: `this.table`,
`this.fields` and `this.constraints` (the `queryFn` reference is passed
explicitly to each operation instead of being stored). -/
structure Migration where
  table : String
  fields : List FieldDef
  constraints : List String
deriving DecidableEq

/-- The constructor: stores the table name and constraints and converts
`Object.entries(fieldDefinitions)` into the `fields` list. -/
def Migration.make (table : String) (fieldDefinitions : FieldDefinitions)
    (constraints : List String) : Migration :=
  { table := table
    fields := fieldDefinitions.map fun p => { fieldName := p.1, type := p.2 }
    constraints := constraints }

/-- The `CREATE TABLE` text built by `createTable` from the current
state: field clauses (name, space, space-joined type tokens) followed by
the constraints, joined by a comma-newline-indent separator. -/
def createTableQuery (s : Migration) : String :=
  "CREATE TABLE " ++ s.table ++ " (\n  " ++
    String.intercalate ",\n  "
      ((s.fields.map fun field => field.fieldName ++ " " ++ String.intercalate " " field.type)
        ++ s.constraints) ++ "\n);"

/-- The query text sent by `dropTable`. -/
def dropTableQuery (table : String) : String :=
  "DROP TABLE IF EXISTS " ++ table

/-- The query text sent by `truncateTable`. -/
def truncateTableQuery (table : String) : String :=
  "TRUNCATE TABLE " ++ table

/-- The query text sent by `addColumn`. -/
def addColumnQuery (table fieldName : String) (type : List String) : String :=
  "ALTER TABLE " ++ table ++ " ADD COLUMN " ++ fieldName ++ " " ++ String.intercalate " " type

/-- The query text sent by `dropColumn`. -/
def dropColumnQuery (table columnName : String) : String :=
  "ALTER TABLE " ++ table ++ " DROP COLUMN " ++ columnName

/-- The query text sent by `renameTable`. -/
def renameTableQuery (table newTableName : String) : String :=
  "ALTER TABLE " ++ table ++ " RENAME TO " ++ newTableName

/-- The catalog query sent by `tableExists` (the template literal with
its exact embedded whitespace). -/
def tableExistsQuery (table : String) : String :=
  "SELECT EXISTS (\n                    SELECT 1 FROM information_schema.tables \n                    WHERE table_name = '" ++ table ++ "'\n                )"

/-- `createTable()`: builds the DDL text, issues it, and mutates nothing
(the error path re-throws `Error(error.sqlMessage || error.message)`). -/
def Migration.createTable (exec : Exec) (s : Migration) :
    List Call × Migration × Except String Unit :=
  match exec (createTableQuery s) none with
  | .ok _ => ([(createTableQuery s, none)], s, .ok ())
  | .error e => ([(createTableQuery s, none)], s, .error (extractMsg e))

/-- `dropTable()`. -/
def Migration.dropTable (exec : Exec) (s : Migration) :
    List Call × Migration × Except String Unit :=
  match exec (dropTableQuery s.table) none with
  | .ok _ => ([(dropTableQuery s.table, none)], s, .ok ())
  | .error e => ([(dropTableQuery s.table, none)], s, .error (extractMsg e))

/-- `truncateTable()`. -/
def Migration.truncateTable (exec : Exec) (s : Migration) :
    List Call × Migration × Except String Unit :=
  match exec (truncateTableQuery s.table) none with
  | .ok _ => ([(truncateTableQuery s.table, none)], s, .ok ())
  | .error e => ([(truncateTableQuery s.table, none)], s, .error (extractMsg e))

/-- `addColumn(fieldName, type)`: issues the ALTER TABLE statement and,
only after it succeeds, pushes `{ fieldName, type }` onto `fields`. -/
def Migration.addColumn (exec : Exec) (s : Migration) (fieldName : String)
    (type : List String) : List Call × Migration × Except String Unit :=
  match exec (addColumnQuery s.table fieldName type) none with
  | .ok _ =>
      ([(addColumnQuery s.table fieldName type, none)],
       { s with fields := s.fields ++ [{ fieldName := fieldName, type := type }] }, .ok ())
  | .error e =>
      ([(addColumnQuery s.table fieldName type, none)], s, .error (extractMsg e))

/-- `dropColumn(columnName)`: issues the ALTER TABLE statement and, only
after it succeeds, filters every entry with that name out of `fields`. -/
def Migration.dropColumn (exec : Exec) (s : Migration) (columnName : String) :
    List Call × Migration × Except String Unit :=
  match exec (dropColumnQuery s.table columnName) none with
  | .ok _ =>
      ([(dropColumnQuery s.table columnName, none)],
       { s with fields := s.fields.filter fun field => field.fieldName != columnName }, .ok ())
  | .error e =>
      ([(dropColumnQuery s.table columnName, none)], s, .error (extractMsg e))

/-- `renameTable(newTableName)`: issues the ALTER TABLE statement and,
only after it succeeds, assigns `this.table = newTableName`. -/
def Migration.renameTable (exec : Exec) (s : Migration) (newTableName : String) :
    List Call × Migration × Except String Unit :=
  match exec (renameTableQuery s.table newTableName) none with
  | .ok _ =>
      ([(renameTableQuery s.table newTableName, none)],
       { s with table := newTableName }, .ok ())
  | .error e =>
      ([(renameTableQuery s.table newTableName, none)], s, .error (extractMsg e))

/-- Property read `base.key` on a non-nullish base: an own property of
an object, `undefined` everywhere else. -/
def JsVal.getProp : JsVal → String → JsVal
  | .obj props, key => match assocLookup props key with
    | some v => v
    | none => .jsUndefined
  | _, _ => .jsUndefined

/-- Whether a value is nullish (`undefined` or `null`), the condition
tested by `?.` and `??`. -/
def JsVal.isNullish : JsVal → Bool
  | .jsUndefined => true
  | .jsNull => true
  | _ => false

/-- Index read `base[0]` on a non-nullish base. -/
def JsVal.index0 : JsVal → JsVal
  | .arr elems => match elems with
    | [] => .jsUndefined
    | e :: _ => e
  | .obj props => match assocLookup props "0" with
    | some v => v
    | none => .jsUndefined
  | .str s => if s.isEmpty then .jsUndefined else .str (s.take 1)
  | _ => .jsUndefined

/-- The optional chain `result.rows?.[0]?.exists` evaluated on a
non-nullish `result` (a nullish link short-circuits to `undefined`). -/
def rowsExistsChain (result : JsVal) : JsVal :=
  let rows := result.getProp "rows"
  if rows.isNullish then .jsUndefined
  else
    let first := rows.index0
    if first.isNullish then .jsUndefined
    else first.getProp "exists"

/-- The `?? false` default: replaces a nullish value by the boolean
`false` and passes any other value through unchanged. -/
def nullishCoalesceFalse (v : JsVal) : JsVal :=
  if v.isNullish then .bool false else v

/-- The message of the TypeError raised by reading a property of a
nullish base value. -/
def typeErrorMessage (base : JsVal) (key : String) : String :=
  "Cannot read properties of " ++
    (match base with
      | .jsNull => "null"
      | _ => "undefined") ++ " (reading '" ++ key ++ "')"

/-- `tableExists()`: issues the catalog query and returns
`result.rows?.[0]?.exists ?? false`.  A nullish result makes the bare
access `result.rows` throw a TypeError, which the `catch` block converts
into a thrown `Error` like any executor failure. -/
def Migration.tableExists (exec : Exec) (s : Migration) :
    List Call × Migration × Except String JsVal :=
  match exec (tableExistsQuery s.table) none with
  | .error e => ([(tableExistsQuery s.table, none)], s, .error (extractMsg e))
  | .ok result =>
    if result.isNullish then
      ([(tableExistsQuery s.table, none)], s,
       .error (extractMsg { sqlMessage := none, message := typeErrorMessage result "rows" }))
    else
      ([(tableExistsQuery s.table, none)], s,
       .ok (nullishCoalesceFalse (rowsExistsChain result)))

/-- A migration callback: receives the instance, returns the instance
state it leaves behind together with its outcome (it may have mutated
the instance through earlier successful operations even when it fails). -/
abbrev Callback := Migration → Migration × Except DBError Unit

/-- `migrate(callback)`: awaits `callback(this)` once; on failure it
re-throws `Error(error.sqlMessage || error.message)`.  The first
component records the argument of every callback invocation. -/
def Migration.migrate (cb : Callback) (s : Migration) :
    List Migration × Migration × Except String Unit :=
  match cb s with
  | (s2, .ok _) => ([s], s2, .ok ())
  | (s2, .error e) => ([s], s2, .error (extractMsg e))

/-- `sql(query, params)`: passes both arguments through to the executor
and returns its result unmodified. -/
def Migration.sql (exec : Exec) (s : Migration) (query : String)
    (params : Option (List JsVal)) : List Call × Migration × Except String JsVal :=
  match exec query params with
  | .ok result => ([(query, params)], s, .ok result)
  | .error e => ([(query, params)], s, .error (extractMsg e))

/-- The assignment `acc[key] = v` on a plain JS object modelled as an
entry list: an existing key keeps its position and gets the new value, a
new key is appended. -/
def objAssign (acc : FieldDefinitions) (key : String) (v : List String) :
    FieldDefinitions :=
  if acc.any fun p => p.1 = key then
    acc.map fun p => if p.1 = key then (key, v) else p
  else acc ++ [(key, v)]

/-- `getFieldDefinitions()`: rebuilds a name-to-type object from
`fields` by successive assignments (a later duplicate overwrites an
earlier one). -/
def Migration.getFieldDefinitions (s : Migration) : FieldDefinitions :=
  s.fields.foldl (fun acc field => objAssign acc field.fieldName field.type) []

/-- The type tokens of the last entry of the list bearing the given
name, `none` when no entry does. -/
def lastType : List FieldDef → String → Option (List String)
  | [], _ => none
  | f :: rest, n =>
    match lastType rest n with
    | some t => some t
    | none => if f.fieldName = n then some f.type else none

/-- The example instance of the spec and the test suite: table
`test_table`, fields id/name, one FOREIGN KEY constraint. -/
def sampleMigration : Migration :=
  Migration.make "test_table"
    [("id", ["SERIAL", "PRIMARY KEY"]), ("name", ["VARCHAR(255)", "NOT NULL"])]
    ["FOREIGN KEY (user_id) REFERENCES users(id)"]

/-- An executor that always resolves (with `true`). -/
def okExec : Exec := fun _ _ => .ok (.bool true)

/-- An executor that always rejects with a plain error. -/
def failExec : Exec := fun _ _ => .error { sqlMessage := none, message := "fail" }

/-! ## The console styling helper (src/src/utils/color.ts) -/

/-- The third tuple component of a `ColorMessage`: absent, a single
style key, or an array of style keys. -/
inductive StyleArg where
  | absent : StyleArg
  | one : String → StyleArg
  | many : List String → StyleArg

/-- One `ColorMessage` tuple `[text, color?, styles?]`. -/
structure ColorMessage where
  text : String
  color : Option String
  style : StyleArg

/-- The `styles` record of escape codes, as an entry list in source
order. -/
def styles : List (String × String) :=
  [("reset", "\u001b[0m"), ("bold", "\u001b[1m"), ("dim", "\u001b[2m"),
   ("italic", "\u001b[3m"), ("underline", "\u001b[4m"), ("blink", "\u001b[5m"),
   ("inverse", "\u001b[7m"), ("hidden", "\u001b[8m"), ("strikethrough", "\u001b[9m"),
   ("black", "\u001b[30m"), ("red", "\u001b[31m"), ("green", "\u001b[32m"),
   ("yellow", "\u001b[33m"), ("blue", "\u001b[34m"), ("magenta", "\u001b[35m"),
   ("cyan", "\u001b[36m"), ("white", "\u001b[37m"),
   ("brightBlack", "\u001b[90m"), ("brightRed", "\u001b[91m"),
   ("brightGreen", "\u001b[92m"), ("brightYellow", "\u001b[93m"),
   ("brightBlue", "\u001b[94m"), ("brightMagenta", "\u001b[95m"),
   ("brightCyan", "\u001b[96m"), ("brightWhite", "\u001b[97m"),
   ("bgBlack", "\u001b[40m"), ("bgRed", "\u001b[41m"), ("bgGreen", "\u001b[42m"),
   ("bgYellow", "\u001b[43m"), ("bgBlue", "\u001b[44m"), ("bgMagenta", "\u001b[45m"),
   ("bgCyan", "\u001b[46m"), ("bgWhite", "\u001b[47m"),
   ("bgBrightBlack", "\u001b[100m"), ("bgBrightRed", "\u001b[101m"),
   ("bgBrightGreen", "\u001b[102m"), ("bgBrightYellow", "\u001b[103m"),
   ("bgBrightBlue", "\u001b[104m"), ("bgBrightMagenta", "\u001b[105m"),
   ("bgBrightCyan", "\u001b[106m"), ("bgBrightWhite", "\u001b[107m")]

/-- JS truthiness of a string: non-empty. -/
def jsTruthyStr (s : String) : Bool := s != ""

/-- The contribution of the `color` component of a message: the guard
`if (color && styles[color])` appends the code. -/
def colorCodePart (c : Option String) : String :=
  match c with
  | none => ""
  | some c =>
    if jsTruthyStr c then
      match assocLookup styles c with
      | some code => if jsTruthyStr code then code else ""
      | none => ""
    else ""

/-- One step of the `stylesToApply.forEach` loop:
`if (styles[s]) output += styles[s]`. -/
def styleStep (acc st : String) : String :=
  match assocLookup styles st with
  | some code => if jsTruthyStr code then acc ++ code else acc
  | none => acc

/-- The accumulation performed by `stylesToApply.forEach` over all
keys. -/
def applyStyles (keys : List String) : String :=
  keys.foldl styleStep ""

/-- The contribution of the `style` component: guarded by `if (style)`
(an absent or empty-string style is falsy and skipped; an array is
always truthy), a lone string is wrapped into a one-element array. -/
def styleCodesPart (st : StyleArg) : String :=
  match st with
  | .absent => ""
  | .one s => if jsTruthyStr s then applyStyles [s] else ""
  | .many l => applyStyles l

/-- One formatted segment: accumulated color code, then style codes,
then the text, then `styles.reset`. -/
def seg (m : ColorMessage) : String :=
  colorCodePart m.color ++ styleCodesPart m.style ++ m.text ++
    (match assocLookup styles "reset" with
      | some code => code
      | none => "")

/-- `color(...messages)`: the single line printed to the console, i.e.
the formatted segments joined by single spaces. -/
def color (messages : List ColorMessage) : String :=
  String.intercalate " " (messages.map seg)

/-- Rendering of one key as the spec words it: the escape code of a
recognized key, nothing for an unrecognized key (silently skipped). -/
def specKeyCode (key : String) : String :=
  match assocLookup styles key with
  | some code => code
  | none => ""

/-- Spec-side rendering of one segment: the escape codes of its
recognized color and styles, the text, and a trailing reset code. -/
def segSpec (m : ColorMessage) : String :=
  (match m.color with
    | some c => specKeyCode c
    | none => "") ++
  (match m.style with
    | .absent => ""
    | .one s => specKeyCode s
    | .many l => String.join (l.map specKeyCode)) ++
  m.text ++ "\u001b[0m"

/-- Spec-side rendering of `createTable`'s query, written from the
spec's words: the header, the field clauses followed by the constraint
strings verbatim joined by a comma-newline-indent separator, and the
closing parenthesis. -/
def createTableQuerySpec (s : Migration) : String :=
  "CREATE TABLE " ++ s.table ++ " (\n  " ++
    String.intercalate ",\n  "
      ((s.fields.map fun f => f.fieldName ++ " " ++ String.intercalate " " f.type)
        ++ s.constraints) ++ "\n);"

/-! ## Auxiliary concrete executors, callbacks and states used by the
concrete theorems below -/

/-- An executor that rejects with a present-but-empty `sqlMessage`. -/
def emptySqlMessageExec : Exec :=
  fun _ _ => .error { sqlMessage := some "", message := "boom" }

/-- A callback that fails with an error carrying both a driver-specific
and a generic message. -/
def dbMsgCallback : Callback :=
  fun s => (s, .error { sqlMessage := some "dbmsg", message := "orig" })

/-- A callback that succeeds without touching the instance. -/
def okCallback : Callback := fun s => (s, .ok ())

/-- A callback that first runs a successful `addColumn('age', ['INT'])`
on the instance it receives and then throws: the model of
`async (m) => { await m.addColumn('age', ['INT']); throw new Error('boom'); }`
run against an executor that accepts the ALTER TABLE statement. -/
def addThenFailCallback : Callback :=
  fun s =>
    ((Migration.addColumn okExec s "age" ["INT"]).2.1,
     .error { sqlMessage := none, message := "boom" })

/-- An executor whose result carries a truthy non-boolean
`rows[0].exists` value. -/
def yesExistsExec : Exec :=
  fun _ _ => .ok (.obj [("rows", .arr [.obj [("exists", .str "yes")]])])

/-- An executor whose result carries `rows[0].exists === true`. -/
def trueExistsExec : Exec :=
  fun _ _ => .ok (.obj [("rows", .arr [.obj [("exists", .bool true)]])])

/-- A one-field instance used by the duplicate-column scenarios. -/
def smallMigration : Migration := Migration.make "t" [("id", ["INT"])] []

/-- The states reachable from a constructor call whose field map has
unique keys by any succession of `addColumn` calls with names not
currently present and arbitrary `dropColumn` calls (each against an
arbitrary executor; a failed call leaves the state unchanged and is
covered as well). -/
inductive ReachableFresh : Migration → Prop where
  | init (table : String) (F : FieldDefinitions) (constraints : List String)
      (hF : (F.map Prod.fst).Nodup) :
      ReachableFresh (Migration.make table F constraints)
  | addCol (exec : Exec) (s : Migration) (n : String) (t : List String)
      (hs : ReachableFresh s)
      (hfresh : s.fields.all (fun f => f.fieldName != n) = true) :
      ReachableFresh (Migration.addColumn exec s n t).2.1
  | dropCol (exec : Exec) (s : Migration) (n : String)
      (hs : ReachableFresh s) :
      ReachableFresh (Migration.dropColumn exec s n).2.1

/-! ## Helper lemmas -/

theorem assocLookup_append_single_ne (acc : FieldDefinitions) (k n : String)
    (v : List String) (h : n ≠ k) :
    assocLookup (acc ++ [(k, v)]) n = assocLookup acc n := by
  induction acc with
  | nil =>
    show (if k = n then some v else none) = none
    rw [if_neg (Ne.symm h)]
  | cons p rest ih =>
    show (if p.1 = n then some p.2 else assocLookup (rest ++ [(k, v)]) n)
        = (if p.1 = n then some p.2 else assocLookup rest n)
    rw [ih]

theorem assocLookup_append_single_self (acc : FieldDefinitions) (k : String)
    (v : List String) (h : (acc.any fun p => p.1 = k) = false) :
    assocLookup (acc ++ [(k, v)]) k = some v := by
  induction acc with
  | nil =>
    show (if k = k then some v else none) = some v
    rw [if_pos rfl]
  | cons p rest ih =>
    simp only [List.any_cons, Bool.or_eq_false_iff, decide_eq_false_iff_not] at h
    show (if p.1 = k then some p.2 else assocLookup (rest ++ [(k, v)]) k) = some v
    rw [if_neg h.1, ih h.2]

theorem assocLookup_map_replace_ne (acc : FieldDefinitions) (k n : String)
    (v : List String) (h : n ≠ k) :
    assocLookup (acc.map fun p => if p.1 = k then (k, v) else p) n
      = assocLookup acc n := by
  induction acc with
  | nil => rfl
  | cons p rest ih =>
    by_cases hp : p.1 = k
    · simp only [List.map_cons, if_pos hp]
      have hpn : ¬p.1 = n := by rw [hp]; exact Ne.symm h
      show (if k = n then some v
              else assocLookup (rest.map fun p => if p.1 = k then (k, v) else p) n)
          = (if p.1 = n then some p.2 else assocLookup rest n)
      rw [if_neg (Ne.symm h), if_neg hpn, ih]
    · simp only [List.map_cons, if_neg hp]
      show (if p.1 = n then some p.2
              else assocLookup (rest.map fun p => if p.1 = k then (k, v) else p) n)
          = (if p.1 = n then some p.2 else assocLookup rest n)
      rw [ih]

theorem assocLookup_map_replace_self (acc : FieldDefinitions) (k : String)
    (v : List String) (h : (acc.any fun p => p.1 = k) = true) :
    assocLookup (acc.map fun p => if p.1 = k then (k, v) else p) k = some v := by
  induction acc with
  | nil => simp at h
  | cons p rest ih =>
    by_cases hp : p.1 = k
    · simp only [List.map_cons, if_pos hp]
      show (if k = k then some v
              else assocLookup (rest.map fun p => if p.1 = k then (k, v) else p) k)
          = some v
      rw [if_pos rfl]
    · simp only [List.any_cons, Bool.or_eq_true, decide_eq_true_eq] at h
      rcases h with h | h
      · exact absurd h hp
      · simp only [List.map_cons, if_neg hp]
        show (if p.1 = k then some p.2
                else assocLookup (rest.map fun p => if p.1 = k then (k, v) else p) k)
            = some v
        rw [if_neg hp, ih h]

theorem assocLookup_objAssign_self (acc : FieldDefinitions) (k : String)
    (v : List String) :
    assocLookup (objAssign acc k v) k = some v := by
  unfold objAssign
  cases h : acc.any fun p => p.1 = k
  · simp only [Bool.false_eq_true, if_false]
    exact assocLookup_append_single_self acc k v h
  · simp only [if_true]
    exact assocLookup_map_replace_self acc k v h

theorem assocLookup_objAssign_ne (acc : FieldDefinitions) (k n : String)
    (v : List String) (h : n ≠ k) :
    assocLookup (objAssign acc k v) n = assocLookup acc n := by
  unfold objAssign
  cases hA : acc.any fun p => p.1 = k
  · simp only [Bool.false_eq_true, if_false]
    exact assocLookup_append_single_ne acc k n v h
  · simp only [if_true]
    exact assocLookup_map_replace_ne acc k n v h

theorem assocLookup_foldl_objAssign (l : List FieldDef) (acc : FieldDefinitions)
    (n : String) :
    assocLookup (l.foldl (fun a f => objAssign a f.fieldName f.type) acc) n
      = match lastType l n with
        | some t => some t
        | none => assocLookup acc n := by
  induction l generalizing acc with
  | nil => simp [lastType]
  | cons f rest ih =>
    simp only [List.foldl_cons, lastType]
    rw [ih]
    cases lastType rest n with
    | some t => simp
    | none =>
      by_cases hf : f.fieldName = n
      · simp only [if_pos hf]
        rw [← hf]
        exact assocLookup_objAssign_self acc f.fieldName f.type
      · simp only [if_neg hf]
        exact assocLookup_objAssign_ne acc f.fieldName n f.type (fun hk => hf hk.symm)

theorem assocLookup_getFieldDefinitions (s : Migration) (n : String) :
    assocLookup s.getFieldDefinitions n = lastType s.fields n := by
  unfold Migration.getFieldDefinitions
  rw [assocLookup_foldl_objAssign]
  cases lastType s.fields n <;> simp [assocLookup]

theorem lastType_filter_ne (l : List FieldDef) (n : String) :
    lastType (l.filter fun f => f.fieldName != n) n = none := by
  induction l with
  | nil => simp [lastType]
  | cons f rest ih =>
    by_cases hf : f.fieldName = n
    · have hb : (f.fieldName != n) = false := by simp [hf]
      simp [List.filter_cons, hb, ih]
    · have hb : (f.fieldName != n) = true := by simp [hf]
      simp [List.filter_cons, hb, lastType, ih, hf]

theorem lastType_append_self (l : List FieldDef) (n : String) (t : List String) :
    lastType (l ++ [{ fieldName := n, type := t }]) n = some t := by
  induction l with
  | nil => simp [lastType]
  | cons f rest ih => simp [lastType, ih]

theorem foldl_objAssign_fresh (l : List FieldDef) (acc : FieldDefinitions)
    (hnodup : (l.map FieldDef.fieldName).Nodup)
    (hfresh : ∀ f ∈ l, ∀ p ∈ acc, p.1 ≠ f.fieldName) :
    l.foldl (fun a f => objAssign a f.fieldName f.type) acc
      = acc ++ l.map fun f => (f.fieldName, f.type) := by
  induction l generalizing acc with
  | nil => simp
  | cons f rest ih =>
    have hany : (acc.any fun p => p.1 = f.fieldName) = false := by
      rw [List.any_eq_false]
      intro p hp
      simpa using hfresh f (by simp) p hp
    have hstep : objAssign acc f.fieldName f.type = acc ++ [(f.fieldName, f.type)] := by
      simp [objAssign, hany]
    have hnodup2 := hnodup
    rw [List.map_cons, List.nodup_cons] at hnodup2
    simp only [List.foldl_cons, hstep]
    rw [ih (acc ++ [(f.fieldName, f.type)]) hnodup2.2]
    · simp
    · intro g hg p hp
      rcases List.mem_append.mp hp with hpacc | hpnew
      · exact hfresh g (List.mem_cons_of_mem f hg) p hpacc
      · have hpf : p = (f.fieldName, f.type) := by simpa using hpnew
        subst hpf
        intro hEq
        have hEq2 : f.fieldName = g.fieldName := hEq
        exact hnodup2.1 (by rw [hEq2]; exact List.mem_map_of_mem FieldDef.fieldName hg)

theorem nullishCoalesceFalse_eq_true_iff (v : JsVal) :
    nullishCoalesceFalse v = JsVal.bool true ↔ v = JsVal.bool true := by
  cases v <;> simp [nullishCoalesceFalse, JsVal.isNullish]

theorem colorCodePart_eq_spec (c : Option String) :
    colorCodePart c = match c with
      | some c => specKeyCode c
      | none => "" := by
  cases c with
  | none => rfl
  | some c =>
    by_cases hc : c = ""
    · subst hc
      rfl
    · have ht : jsTruthyStr c = true := by simp [jsTruthyStr, hc]
      simp only [colorCodePart, ht, if_true, specKeyCode]
      cases hl : assocLookup styles c with
      | none => rfl
      | some code =>
        by_cases hcode : code = ""
        · subst hcode
          simp [jsTruthyStr]
        · simp [jsTruthyStr, hcode]

theorem styleStep_eq_spec (acc st : String) :
    styleStep acc st = acc ++ specKeyCode st := by
  unfold styleStep specKeyCode
  cases hl : assocLookup styles st with
  | none => simp
  | some code =>
    by_cases hcode : code = ""
    · subst hcode
      simp [jsTruthyStr]
    · simp [jsTruthyStr, hcode]

theorem strFoldlAppend (xs : List String) (a : String) :
    xs.foldl (fun r s => r ++ s) a = a ++ xs.foldl (fun r s => r ++ s) "" := by
  induction xs generalizing a with
  | nil => simp
  | cons x xs ih =>
    simp only [List.foldl_cons]
    rw [ih (a ++ x), ih ("" ++ x), String.empty_append, String.append_assoc]

theorem strJoin_cons (x : String) (xs : List String) :
    String.join (x :: xs) = x ++ String.join xs := by
  show List.foldl (fun r s => r ++ s) ("" ++ x) xs = x ++ String.join xs
  rw [String.empty_append]
  exact strFoldlAppend xs x

theorem applyStyles_from (keys : List String) (acc : String) :
    keys.foldl styleStep acc = acc ++ String.join (keys.map specKeyCode) := by
  induction keys generalizing acc with
  | nil => simp [String.join]
  | cons st rest ih =>
    simp only [List.foldl_cons, styleStep_eq_spec, ih, List.map_cons, strJoin_cons,
      String.append_assoc]

theorem styleCodesPart_eq_spec (st : StyleArg) :
    styleCodesPart st = match st with
      | .absent => ""
      | .one s => specKeyCode s
      | .many l => String.join (l.map specKeyCode) := by
  cases st with
  | absent => rfl
  | one s =>
    by_cases hs : s = ""
    · subst hs
      rfl
    · have ht : jsTruthyStr s = true := by simp [jsTruthyStr, hs]
      simp only [styleCodesPart, ht, if_true, applyStyles, List.foldl_cons, List.foldl_nil,
        styleStep_eq_spec, String.empty_append]
  | many l =>
    simp only [styleCodesPart, applyStyles, applyStyles_from, String.empty_append]

theorem seg_eq_segSpec (m : ColorMessage) : seg m = segSpec m := by
  unfold seg segSpec
  rw [colorCodePart_eq_spec, styleCodesPart_eq_spec]
  rfl

/-! ## Claim theorems -/

/-- C1: for every table name, field-definition map and constraint list,
`createTable()` invokes the executor with exactly one query string equal
to the deterministic concatenation described by the spec (header, field
clauses in insertion order, constraints verbatim, joined by the
comma-newline-indent separator, closed by the final parenthesis), and on
the spec's example state that string is exactly the expected literal. -/
theorem createTable_query_exact :
    (∀ (exec : Exec) (s : Migration),
      (Migration.createTable exec s).1 = [(createTableQuerySpec s, none)]) ∧
    createTableQuerySpec sampleMigration
      = "CREATE TABLE test_table (\n  id SERIAL PRIMARY KEY,\n  name VARCHAR(255) NOT NULL,\n  FOREIGN KEY (user_id) REFERENCES users(id)\n);" := by
  constructor
  · intro exec s
    have hq : createTableQuery s = createTableQuerySpec s := rfl
    rw [← hq]
    cases hx : exec (createTableQuery s) none <;>
      simp [Migration.createTable, hx]
  · rfl

/-- C2 counterexample: the claim includes `migrate` among the operations
whose in-memory state is untouched by a failure, but a callback that
performs a successful `addColumn` before throwing leaves `migrate`
failed with the fields mutated relative to the state before the call. -/
theorem migrate_failure_can_mutate_state :
    (Migration.migrate addThenFailCallback smallMigration).2.2 = .error "boom" ∧
    (Migration.migrate addThenFailCallback smallMigration).2.1 ≠ smallMigration := by
  exact ⟨rfl, by decide⟩

/-- C2 (amended): for each executor-backed operation (createTable,
dropTable, truncateTable, addColumn, dropColumn, renameTable,
tableExists, sql), an executor failure leaves the fields sequence and
table name exactly as they were, with exactly one executor call and no
retry or compensating action; `migrate` itself mutates nothing — after a
failed callback the state is whatever the callback left behind, and the
callback is not retried. -/
theorem state_unchanged_on_executor_failure :
    (∀ (exec : Exec) (s : Migration) (e : DBError),
      exec (createTableQuery s) none = .error e →
      Migration.createTable exec s
        = ([(createTableQuery s, none)], s, .error (extractMsg e))) ∧
    (∀ (exec : Exec) (s : Migration) (e : DBError),
      exec (dropTableQuery s.table) none = .error e →
      Migration.dropTable exec s
        = ([(dropTableQuery s.table, none)], s, .error (extractMsg e))) ∧
    (∀ (exec : Exec) (s : Migration) (e : DBError),
      exec (truncateTableQuery s.table) none = .error e →
      Migration.truncateTable exec s
        = ([(truncateTableQuery s.table, none)], s, .error (extractMsg e))) ∧
    (∀ (exec : Exec) (s : Migration) (n : String) (t : List String) (e : DBError),
      exec (addColumnQuery s.table n t) none = .error e →
      Migration.addColumn exec s n t
        = ([(addColumnQuery s.table n t, none)], s, .error (extractMsg e))) ∧
    (∀ (exec : Exec) (s : Migration) (n : String) (e : DBError),
      exec (dropColumnQuery s.table n) none = .error e →
      Migration.dropColumn exec s n
        = ([(dropColumnQuery s.table n, none)], s, .error (extractMsg e))) ∧
    (∀ (exec : Exec) (s : Migration) (n : String) (e : DBError),
      exec (renameTableQuery s.table n) none = .error e →
      Migration.renameTable exec s n
        = ([(renameTableQuery s.table n, none)], s, .error (extractMsg e))) ∧
    (∀ (exec : Exec) (s : Migration) (e : DBError),
      exec (tableExistsQuery s.table) none = .error e →
      Migration.tableExists exec s
        = ([(tableExistsQuery s.table, none)], s, .error (extractMsg e))) ∧
    (∀ (exec : Exec) (s : Migration) (q : String) (p : Option (List JsVal)) (e : DBError),
      exec q p = .error e →
      Migration.sql exec s q p = ([(q, p)], s, .error (extractMsg e))) ∧
    (∀ (cb : Callback) (s s2 : Migration) (e : DBError),
      cb s = (s2, .error e) →
      Migration.migrate cb s = ([s], s2, .error (extractMsg e))) := by
  refine ⟨?_, ?_, ?_, ?_, ?_, ?_, ?_, ?_, ?_⟩
  · intro exec s e h
    simp [Migration.createTable, h]
  · intro exec s e h
    simp [Migration.dropTable, h]
  · intro exec s e h
    simp [Migration.truncateTable, h]
  · intro exec s n t e h
    simp [Migration.addColumn, h]
  · intro exec s n e h
    simp [Migration.dropColumn, h]
  · intro exec s n e h
    simp [Migration.renameTable, h]
  · intro exec s e h
    simp [Migration.tableExists, h]
  · intro exec s q p e h
    simp [Migration.sql, h]
  · intro cb s s2 e h
    simp [Migration.migrate, h]

/-- C2 witness: the amended theorem applied to the always-failing
executor on the sample state, and to a failing callback. -/
theorem state_unchanged_on_executor_failure_witness :
    Migration.createTable failExec sampleMigration
      = ([(createTableQuery sampleMigration, none)], sampleMigration, .error "fail") ∧
    Migration.migrate dbMsgCallback sampleMigration
      = ([sampleMigration], sampleMigration, .error "dbmsg") := by
  constructor
  · exact state_unchanged_on_executor_failure.1 failExec sampleMigration
      { sqlMessage := none, message := "fail" } rfl
  · exact state_unchanged_on_executor_failure.2.2.2.2.2.2.2.2 dbMsgCallback
      sampleMigration sampleMigration { sqlMessage := some "dbmsg", message := "orig" } rfl

/-- C3 counterexample: a successful `addColumn` whose name is already
present appends a duplicate entry, so the fields sequence does contain
two entries with the same name after a succession of successful
operations. -/
theorem addColumn_duplicate_breaks_nodup :
    (Migration.addColumn okExec smallMigration "id" ["INT"]).2.2 = .ok () ∧
    ¬ (((Migration.addColumn okExec smallMigration "id" ["INT"]).2.1.fields.map
        FieldDef.fieldName).Nodup) := by
  exact ⟨rfl, by decide⟩

/-- C3 (amended): the fields sequence never contains two entries with
the same name at any point of a sequence of `addColumn`/`dropColumn`
calls starting from a constructor call with unique keys, provided every
`addColumn` uses a name not currently present in the fields sequence
(without that proviso a successful duplicate `addColumn` breaks the
invariant). -/
theorem fields_names_nodup_of_fresh (s : Migration) (h : ReachableFresh s) :
    (s.fields.map FieldDef.fieldName).Nodup := by
  induction h with
  | init table F constraints hF =>
    simpa [Migration.make, List.map_map, Function.comp] using hF
  | addCol exec s n t hs hfresh ih =>
    cases hx : exec (addColumnQuery s.table n t) none with
    | ok v =>
      simp only [Migration.addColumn, hx]
      rw [List.map_append, List.nodup_append]
      refine ⟨ih, by simp, ?_⟩
      intro a ha hb
      obtain ⟨f, hf, rfl⟩ := List.mem_map.mp ha
      have hb2 : f.fieldName = n := by simpa using hb
      have hall := (List.all_eq_true.mp hfresh) f hf
      simp [hb2] at hall
    | error e =>
      simp only [Migration.addColumn, hx]
      exact ih
  | dropCol exec s n hs ih =>
    cases hx : exec (dropColumnQuery s.table n) none with
    | ok v =>
      simp only [Migration.dropColumn, hx]
      exact ih.sublist ((List.filter_sublist s.fields).map FieldDef.fieldName)
    | error e =>
      simp only [Migration.dropColumn, hx]
      exact ih

/-- C3 witness: the amended theorem applied to a concrete reachable
state: construction with one field followed by a successful fresh-name
`addColumn`. -/
theorem fields_names_nodup_of_fresh_witness :
    ((Migration.addColumn okExec smallMigration "age" ["INT"]).2.1.fields.map
      FieldDef.fieldName).Nodup :=
  fields_names_nodup_of_fresh _
    (ReachableFresh.addCol okExec smallMigration "age" ["INT"]
      (ReachableFresh.init "t" [("id", ["INT"])] [] (by decide)) (by decide))

/-- C4 counterexample: when the executor's result carries a truthy
non-boolean `rows[0].exists` (here the string "yes"), `tableExists`
returns that value itself — neither `true` nor the `false` the claim
requires for an `exists` not equal to `true`. -/
theorem tableExists_nonbool_result :
    (Migration.tableExists yesExistsExec sampleMigration).2.2 = .ok (JsVal.str "yes") ∧
    JsVal.str "yes" ≠ JsVal.bool false ∧ JsVal.str "yes" ≠ JsVal.bool true := by
  exact ⟨rfl, fun h => JsVal.noConfusion h, fun h => JsVal.noConfusion h⟩

/-- C4 (amended): `tableExists` returns `true` exactly when the chain
`rows[0].exists` yields the boolean `true`; for any other non-nullish
result it returns the chain's value with a nullish chain replaced by
`false` (so a truthy non-boolean `exists` is returned verbatim rather
than mapped to `false`); a nullish executor result makes the property
access itself throw instead of returning `false`. -/
theorem tableExists_result_characterization (exec : Exec) (s : Migration) (r : JsVal)
    (h : exec (tableExistsQuery s.table) none = .ok r) :
    (r.isNullish = false →
      (Migration.tableExists exec s).2.2 = .ok (nullishCoalesceFalse (rowsExistsChain r)) ∧
      ((Migration.tableExists exec s).2.2 = .ok (JsVal.bool true) ↔
        rowsExistsChain r = JsVal.bool true)) ∧
    (r.isNullish = true →
      (Migration.tableExists exec s).2.2 = .error (typeErrorMessage r "rows")) := by
  constructor
  · intro hn
    have hred : (Migration.tableExists exec s).2.2
        = .ok (nullishCoalesceFalse (rowsExistsChain r)) := by
      simp [Migration.tableExists, h, hn]
    refine ⟨hred, ?_⟩
    rw [hred]
    constructor
    · intro hh
      exact (nullishCoalesceFalse_eq_true_iff _).mp (Except.ok.inj hh)
    · intro hh
      rw [hh]
      rfl
  · intro hn
    simp [Migration.tableExists, h, hn, extractMsg]

/-- C4 witness: the amended theorem applied to an executor whose result
is `{rows: [{exists: true}]}`. -/
theorem tableExists_result_characterization_witness :
    (Migration.tableExists trueExistsExec sampleMigration).2.2
      = .ok (nullishCoalesceFalse (rowsExistsChain
          (.obj [("rows", .arr [.obj [("exists", .bool true)]])]))) ∧
    ((Migration.tableExists trueExistsExec sampleMigration).2.2 = .ok (JsVal.bool true) ↔
      rowsExistsChain (.obj [("rows", .arr [.obj [("exists", .bool true)]])])
        = JsVal.bool true) :=
  (tableExists_result_characterization trueExistsExec sampleMigration _ rfl).1 rfl

/-- C5 counterexample: an executor error whose `sqlMessage` field is
present but empty is not propagated as the (empty) `sqlMessage`: the
`||` fallback selects the generic message instead, so "the sqlMessage
field when present" is not what the operation carries. -/
theorem extract_empty_sqlMessage_falls_back :
    (Migration.createTable emptySqlMessageExec sampleMigration).2.2 = .error "boom" ∧
    ("boom" : String) ≠ "" := by
  exact ⟨rfl, by decide⟩

/-- C5 (amended): every operation surfaces an executor failure as an
error carrying `extractMsg` of the executor's error — the `sqlMessage`
field when it is present and non-empty (truthy), otherwise the generic
`message` field. -/
theorem operations_error_message_extraction :
    (∀ m : String, extractMsg { sqlMessage := none, message := m } = m) ∧
    (∀ sm m : String, sm ≠ "" → extractMsg { sqlMessage := some sm, message := m } = sm) ∧
    (∀ m : String, extractMsg { sqlMessage := some "", message := m } = m) ∧
    (∀ (exec : Exec) (s : Migration) (e : DBError),
      exec (createTableQuery s) none = .error e →
      (Migration.createTable exec s).2.2 = .error (extractMsg e)) ∧
    (∀ (exec : Exec) (s : Migration) (e : DBError),
      exec (dropTableQuery s.table) none = .error e →
      (Migration.dropTable exec s).2.2 = .error (extractMsg e)) ∧
    (∀ (exec : Exec) (s : Migration) (e : DBError),
      exec (truncateTableQuery s.table) none = .error e →
      (Migration.truncateTable exec s).2.2 = .error (extractMsg e)) ∧
    (∀ (exec : Exec) (s : Migration) (n : String) (t : List String) (e : DBError),
      exec (addColumnQuery s.table n t) none = .error e →
      (Migration.addColumn exec s n t).2.2 = .error (extractMsg e)) ∧
    (∀ (exec : Exec) (s : Migration) (n : String) (e : DBError),
      exec (dropColumnQuery s.table n) none = .error e →
      (Migration.dropColumn exec s n).2.2 = .error (extractMsg e)) ∧
    (∀ (exec : Exec) (s : Migration) (n : String) (e : DBError),
      exec (renameTableQuery s.table n) none = .error e →
      (Migration.renameTable exec s n).2.2 = .error (extractMsg e)) ∧
    (∀ (exec : Exec) (s : Migration) (e : DBError),
      exec (tableExistsQuery s.table) none = .error e →
      (Migration.tableExists exec s).2.2 = .error (extractMsg e)) ∧
    (∀ (exec : Exec) (s : Migration) (q : String) (p : Option (List JsVal)) (e : DBError),
      exec q p = .error e →
      (Migration.sql exec s q p).2.2 = .error (extractMsg e)) := by
  refine ⟨fun m => rfl, ?_, fun m => rfl, ?_, ?_, ?_, ?_, ?_, ?_, ?_, ?_⟩
  · intro sm m h
    simp [extractMsg, h]
  · intro exec s e h
    simp [Migration.createTable, h]
  · intro exec s e h
    simp [Migration.dropTable, h]
  · intro exec s e h
    simp [Migration.truncateTable, h]
  · intro exec s n t e h
    simp [Migration.addColumn, h]
  · intro exec s n e h
    simp [Migration.dropColumn, h]
  · intro exec s n e h
    simp [Migration.renameTable, h]
  · intro exec s e h
    simp [Migration.tableExists, h]
  · intro exec s q p e h
    simp [Migration.sql, h]

/-- C5 witness: the extraction rules and the createTable clause applied
at concrete inputs. -/
theorem operations_error_message_extraction_witness :
    extractMsg { sqlMessage := some "dbmsg", message := "orig" } = "dbmsg" ∧
    (Migration.createTable failExec sampleMigration).2.2 = .error "fail" := by
  constructor
  · exact operations_error_message_extraction.2.1 "dbmsg" "orig" (by decide)
  · exact operations_error_message_extraction.2.2.2.1 failExec sampleMigration
      { sqlMessage := none, message := "fail" } rfl

/-- C6 counterexample: a callback failure whose error object carries a
truthy `sqlMessage` different from its `message` makes `migrate` fail
with the `sqlMessage`, not with the same message as the callback's
failure. -/
theorem migrate_message_not_preserved :
    (Migration.migrate dbMsgCallback sampleMigration).2.2 = .error "dbmsg" ∧
    ("dbmsg" : String) ≠ "orig" := by
  exact ⟨rfl, by decide⟩

/-- C6 (amended): `migrate(callback)` invokes the callback exactly once
with the instance itself as sole argument; when the callback succeeds,
`migrate` returns normally; when the callback fails, `migrate` fails
with the message extracted from the callback's error by the
sqlMessage-else-message policy (equal to the callback's own message
whenever the error has no truthy `sqlMessage`). -/
theorem migrate_callback_contract (cb : Callback) (s : Migration) :
    (Migration.migrate cb s).1 = [s] ∧
    (∀ s2, cb s = (s2, .ok ()) → Migration.migrate cb s = ([s], s2, .ok ())) ∧
    (∀ s2 e, cb s = (s2, .error e) →
      Migration.migrate cb s = ([s], s2, .error (extractMsg e))) := by
  refine ⟨?_, ?_, ?_⟩
  · rcases hcb : cb s with ⟨s2, r⟩
    cases r <;> simp [Migration.migrate, hcb]
  · intro s2 h
    simp [Migration.migrate, h]
  · intro s2 e h
    simp [Migration.migrate, h]

/-- C6 witness: the contract applied to a callback that succeeds without
touching the state. -/
theorem migrate_callback_contract_witness :
    (Migration.migrate okCallback sampleMigration).1 = [sampleMigration] ∧
    Migration.migrate okCallback sampleMigration
      = ([sampleMigration], sampleMigration, .ok ()) := by
  refine ⟨(migrate_callback_contract okCallback sampleMigration).1, ?_⟩
  exact (migrate_callback_contract okCallback sampleMigration).2.1 sampleMigration rfl

/-- C7: constructing a Migration with a field-definition map F (unique
keys, as any JS object has) and immediately calling
`getFieldDefinitions()` returns a map equal to F — as a whole and key by
key, each key mapped to the same type-token sequence. -/
theorem getFieldDefinitions_roundtrip (table : String) (F : FieldDefinitions)
    (constraints : List String) (hF : (F.map Prod.fst).Nodup) :
    (Migration.make table F constraints).getFieldDefinitions = F ∧
    ∀ k, assocLookup (Migration.make table F constraints).getFieldDefinitions k
        = assocLookup F k := by
  have hnames : ((Migration.make table F constraints).fields.map FieldDef.fieldName)
      = F.map Prod.fst := by
    show ((F.map fun p => ({ fieldName := p.1, type := p.2 } : FieldDef)).map
      FieldDef.fieldName) = F.map Prod.fst
    rw [List.map_map]
    rfl
  have hmain : (Migration.make table F constraints).getFieldDefinitions = F := by
    unfold Migration.getFieldDefinitions
    rw [foldl_objAssign_fresh _ _ (by rw [hnames]; exact hF) (by simp)]
    show ([] : FieldDefinitions) ++
        ((F.map fun p => ({ fieldName := p.1, type := p.2 } : FieldDef)).map
          fun f => (f.fieldName, f.type)) = F
    rw [List.nil_append, List.map_map]
    have hid : ((fun f : FieldDef => (f.fieldName, f.type)) ∘
        fun p : String × List String => ({ fieldName := p.1, type := p.2 } : FieldDef))
        = id := funext fun p => rfl
    rw [hid, List.map_id]
  exact ⟨hmain, fun k => by rw [hmain]⟩

/-- C7 witness: the round-trip on the sample field map. -/
theorem getFieldDefinitions_roundtrip_witness :
    (Migration.make "test_table"
      [("id", ["SERIAL", "PRIMARY KEY"]), ("name", ["VARCHAR(255)", "NOT NULL"])]
      ["FOREIGN KEY (user_id) REFERENCES users(id)"]).getFieldDefinitions
      = [("id", ["SERIAL", "PRIMARY KEY"]), ("name", ["VARCHAR(255)", "NOT NULL"])] :=
  (getFieldDefinitions_roundtrip "test_table"
    [("id", ["SERIAL", "PRIMARY KEY"]), ("name", ["VARCHAR(255)", "NOT NULL"])]
    ["FOREIGN KEY (user_id) REFERENCES users(id)"] (by decide)).1

/-- C8: `dropColumn(name)` sends the executor exactly
`ALTER TABLE <table> DROP COLUMN <name>` (and nothing else, whatever the
outcome); after a successful call `getFieldDefinitions()` no longer
includes the name; and when the name is absent from the fields sequence
the call still fires, does not fail locally, and the local filter is a
no-op. -/
theorem dropColumn_contract (exec : Exec) (s : Migration) (n : String) :
    (Migration.dropColumn exec s n).1 = [(dropColumnQuery s.table n, none)] ∧
    (∀ v, exec (dropColumnQuery s.table n) none = .ok v →
      (Migration.dropColumn exec s n).2.2 = .ok () ∧
      assocLookup (Migration.dropColumn exec s n).2.1.getFieldDefinitions n = none ∧
      ((s.fields.all fun f => f.fieldName != n) = true →
        (Migration.dropColumn exec s n).2.1 = s)) := by
  constructor
  · cases hx : exec (dropColumnQuery s.table n) none <;>
      simp [Migration.dropColumn, hx]
  · intro v h
    have hstate : (Migration.dropColumn exec s n).2.1
        = { s with fields := s.fields.filter fun f => f.fieldName != n } := by
      simp [Migration.dropColumn, h]
    refine ⟨by simp [Migration.dropColumn, h], ?_, ?_⟩
    · rw [hstate, assocLookup_getFieldDefinitions]
      exact lastType_filter_ne s.fields n
    · intro hall
      rw [hstate]
      have hfil : (s.fields.filter fun f => f.fieldName != n) = s.fields :=
        List.filter_eq_self.mpr (List.all_eq_true.mp hall)
      rw [hfil]

/-- C8 witness: dropping the existing column name from the sample state
with an accepting executor. -/
theorem dropColumn_contract_witness :
    (Migration.dropColumn okExec sampleMigration "name").1
      = [("ALTER TABLE test_table DROP COLUMN name", none)] ∧
    assocLookup
      (Migration.dropColumn okExec sampleMigration "name").2.1.getFieldDefinitions
      "name" = none := by
  constructor
  · exact (dropColumn_contract okExec sampleMigration "name").1
  · exact ((dropColumn_contract okExec sampleMigration "name").2 (.bool true) rfl).2.1

/-- C9: `color` wraps each text segment with the escape codes of its
recognized color and styles and a trailing reset code and joins the
segments by single spaces; an unrecognized style or color key
contributes nothing (silently skipped), and the function is total — as
shown by the concrete segment whose color and style keys are both
unknown. -/
theorem color_output_spec :
    (∀ messages : List ColorMessage,
      color messages = String.intercalate " " (messages.map segSpec)) ∧
    seg { text := "hi", color := some "unknownColor", style := .one "unknownStyle" }
      = "hi" ++ "\u001b[0m" := by
  constructor
  · intro messages
    unfold color
    rw [show seg = segSpec from funext seg_eq_segSpec]
  · rfl

/-- C10: a successful `addColumn` appends its entry after the existing
ones (duplicates included); `getFieldDefinitions` maps a name to the
type list of the last entry bearing it (so a later duplicate overwrites
an earlier one in the returned map); appending an entry makes its type
list the last one for its name; and a successful `dropColumn` removes
every entry bearing the name, duplicates included. -/
theorem addColumn_duplicate_semantics :
    (∀ (exec : Exec) (s : Migration) (n : String) (t : List String) (v : JsVal),
      exec (addColumnQuery s.table n t) none = .ok v →
      (Migration.addColumn exec s n t).2.1.fields
        = s.fields ++ [{ fieldName := n, type := t }]) ∧
    (∀ (s : Migration) (n : String),
      assocLookup s.getFieldDefinitions n = lastType s.fields n) ∧
    (∀ (l : List FieldDef) (n : String) (t : List String),
      lastType (l ++ [{ fieldName := n, type := t }]) n = some t) ∧
    (∀ (exec : Exec) (s : Migration) (n : String) (v : JsVal),
      exec (dropColumnQuery s.table n) none = .ok v →
      (Migration.dropColumn exec s n).2.1.fields
        = s.fields.filter fun f => f.fieldName != n) := by
  refine ⟨?_, assocLookup_getFieldDefinitions, lastType_append_self, ?_⟩
  · intro exec s n t v h
    simp [Migration.addColumn, h]
  · intro exec s n v h
    simp [Migration.dropColumn, h]

/-- C10 witness: adding a duplicate `id` column to the one-field sample
state appends it, and the returned map then holds the newer type
list. -/
theorem addColumn_duplicate_semantics_witness :
    (Migration.addColumn okExec smallMigration "id" ["BIGINT"]).2.1.fields
      = smallMigration.fields ++ [{ fieldName := "id", type := ["BIGINT"] }] ∧
    assocLookup
      (Migration.addColumn okExec smallMigration "id" ["BIGINT"]).2.1.getFieldDefinitions
      "id" = some ["BIGINT"] := by
  constructor
  · exact addColumn_duplicate_semantics.1 okExec smallMigration "id" ["BIGINT"]
      (.bool true) rfl
  · rw [addColumn_duplicate_semantics.2.1]
    decide
